import Mathlib

/-!
Shallow embedding of the `devilution-comparer` binary-comparison tool
(sources: `src/main.rs`, `src/cmdline.rs`; the `corelogic` module is not in
the sources, so the parts of it that claims depend on are modelled from the
specification and marked as such).

Machine integers (`u64`) are modelled as `Nat` with explicit reduction
modulo `2 ^ 64` where wrap-around matters.  Fallible operations return
`Option` / `Except`.  Console output is modelled as the `String` lines the
program prints.
-/

namespace DevComparer

/-- `2^64`, the modulus of Rust's `u64` arithmetic (release-profile wrapping). -/
def u64Mod : Nat := 2 ^ 64

/-- Wrapping `u64` subtraction `a - b` (Rust release semantics) for
`a, b < 2^64`: `(a + 2^64 - b) % 2^64`. -/
def u64WrapSub (a b : Nat) : Nat := (a + u64Mod - b) % u64Mod

/-- `CoreError` from `corelogic`, as matched in `run_disassemble`
(`main.rs` lines 127-133): five variants; `CvDumpFail`, `IoError` and
`CapstoneError` carry an underlying error rendered with `{:?}`, modelled as
its `String` rendering. -/
inductive CoreError where
  | CvDumpFail (e : String)
  | CvDumpUnsuccessful
  | SymbolNotFound
  | IoError (e : String)
  | CapstoneError (e : String)
deriving DecidableEq, Repr

/-- The error-kind tag of a `CoreError` (which of the five variants it is),
ignoring the carried payload. -/
def errKind : CoreError → Nat
  | .CvDumpFail _ => 0
  | .CvDumpUnsuccessful => 1
  | .SymbolNotFound => 2
  | .IoError _ => 3
  | .CapstoneError _ => 4

/-- The fixed text each match arm of `run_disassemble`'s error branch prints
before the interpolated payload (empty for payload-free variants). -/
def errMsgHead : CoreError → String
  | .CvDumpFail _ => "CvDump.exe error: "
  | .CvDumpUnsuccessful => "CvDump exited with errorcode != 0."
  | .SymbolNotFound => "Symbol not found in the pdb."
  | .IoError _ => "IO error: "
  | .CapstoneError _ => "Capstone disassembly engine error: "

/-- The payload text interpolated after the head (empty for payload-free
variants). -/
def errPayload : CoreError → String
  | .CvDumpFail e => e
  | .CvDumpUnsuccessful => ""
  | .SymbolNotFound => ""
  | .IoError e => e
  | .CapstoneError e => e

/-- The line `run_disassemble` prints for an error (`main.rs` 127-133):
each variant's `println!` message. -/
def reportError (e : CoreError) : String :=
  match e with
  | .CvDumpFail e => "CvDump.exe error: " ++ e
  | .CvDumpUnsuccessful => "CvDump exited with errorcode != 0."
  | .SymbolNotFound => "Symbol not found in the pdb."
  | .IoError e => "IO error: " ++ e
  | .CapstoneError e => "Capstone disassembly engine error: " ++ e

/-- Rust's upper-hex formatting of a `u64` value (format specifier `:X`):
uppercase hexadecimal digits, no leading zeros, `0` printed as `0`. -/
def fmtUpperHex (n : Nat) : String :=
  String.mk ((Nat.toDigits 16 n).map Char.toUpper)

/-- Rust's sign-aware upper-hex formatting (format specifier `:+X`) of a
`u64` value: an unsigned value is never negative, so the sign is always
the plus sign. -/
def fmtPlusUpperHex (n : Nat) : String :=
  "+" ++ fmtUpperHex n

/-- The `Opts` struct as built in `main` (`main.rs` 57-69).  Paths are
modelled as the strings they render to; `orig_offset_start` is the parsed
`u64`; `last_offset_length` holds the last successful run's
offset/length pair (`u64` each, per the spec's `ComparisonResult` of two
unsigned integers). -/
structure Opts where
  orig : String
  compare_file_path : String
  compare_pdb_file : String
  orig_offset_start : Nat
  debug_symbol : String
  print_adresses : Bool
  last_offset_length : Option (Nat × Nat)
  enable_watcher : Bool
deriving Repr, DecidableEq

/-- The result of `corelogic::run_compare`: offset and length on success
(`u64` each), a `CoreError` otherwise.  `run_compare` itself is external to
the sources, so its result is passed in. -/
abbrev RunResult : Type := Except CoreError (Nat × Nat)

/-- `run_disassemble` (`main.rs` 105-135), as a function of the
`run_compare` result it observes and of the `Opts` state: returns the
updated `Opts` and the line printed.  On success the printed line includes,
when a previous result is retained, the wrapping `u64` differences
`offset - old_offset` and `length - old_length` rendered with `:+X`
(release-profile semantics; a debug build would panic on underflow), and
`last_offset_length` is replaced; on error the mapped message is printed
and `opts` is returned unchanged. -/
def run_disassemble (res : RunResult) (opts : Opts) : Opts × String :=
  match res with
  | .ok (offset, length) =>
      ({ opts with last_offset_length := some (offset, length) },
        "Found " ++ opts.debug_symbol ++ " at offset: " ++ fmtUpperHex offset ++
          (match opts.last_offset_length with
            | some (old_offset, _) =>
                " (" ++ fmtPlusUpperHex (u64WrapSub offset old_offset) ++ ")"
            | none => "") ++
          ", length: " ++ fmtUpperHex length ++
          (match opts.last_offset_length with
            | some (_, old_length) =>
                " (" ++ fmtPlusUpperHex (u64WrapSub length old_length) ++ ")"
            | none => ""))
  | .error e => (opts, reportError e)

/-- `notify::DebouncedEvent` (version 4), the event type received from the
debounced file watcher channel in `watch`; paths are modelled as strings,
the watcher error payload as its rendered message. -/
inductive DebouncedEvent where
  | NoticeWrite (path : String)
  | NoticeRemove (path : String)
  | Create (path : String)
  | Write (path : String)
  | Chmod (path : String)
  | Remove (path : String)
  | Rename (src dst : String)
  | Rescan
  | Error (msg : String) (path : Option String)
deriving Repr, DecidableEq

/-- One result of `rx.recv()` in the watch loop: a debounced event, or a
channel receive error (modelled by its rendered message). -/
abbrev RecvItem : Type := Except String DebouncedEvent

/-- Whether a received item matches the loop's trigger arm
`Ok(DebouncedEvent::Create(_)) | Ok(DebouncedEvent::Write(_))`. -/
def isTrigger : RecvItem → Bool
  | .ok (.Create _) => true
  | .ok (.Write _) => true
  | _ => false

/-- The observable state carried through the watch loop: the mutable `Opts`,
the number of comparison runs performed so far (indexing into the stream of
`run_compare` results), and the lines printed so far. -/
structure LoopState where
  opts : Opts
  runIdx : Nat
  out : List String
deriving Repr, DecidableEq

/-- One iteration of the `loop` body in `watch` (`main.rs` 94-102): a
`Create` or `Write` event runs `run_disassemble` (consuming the next
`run_compare` result), a receive error prints a watch-error line, and every
other event does nothing. -/
def watchStep (runs : Nat → RunResult) (item : RecvItem) (s : LoopState) :
    LoopState :=
  match item with
  | .ok (.Create _) =>
      { opts := (run_disassemble (runs s.runIdx) s.opts).1,
        runIdx := s.runIdx + 1,
        out := s.out ++ [(run_disassemble (runs s.runIdx) s.opts).2] }
  | .ok (.Write _) =>
      { opts := (run_disassemble (runs s.runIdx) s.opts).1,
        runIdx := s.runIdx + 1,
        out := s.out ++ [(run_disassemble (runs s.runIdx) s.opts).2] }
  | .error e => { s with out := s.out ++ ["Watch error: " ++ e] }
  | .ok _ => s

/-- The state after the initial `run_disassemble(&mut opts)` call at the top
of `watch`: one run performed, its line printed. -/
def initialRunState (runs : Nat → RunResult) (opts : Opts) : LoopState :=
  { opts := (run_disassemble (runs 0) opts).1,
    runIdx := 1,
    out := [(run_disassemble (runs 0) opts).2] }

/-- The infinite watch loop observed over a finite list of received items. -/
def watchLoop (runs : Nat → RunResult) (items : List RecvItem)
    (s : LoopState) : LoopState :=
  items.foldl (fun s item => watchStep runs item s) s

/-- `watch` (`main.rs` 76-103): performs the initial run, returns `Ok` at
once if watching is disabled, then propagates (`?`) a failure of
`Watcher::new` or of `watcher.watch` — both passed in as `Except` results of
the external watcher — prints the started-watching line, and enters the
loop.  The real loop never returns; the embedding observes it on the finite
item list `items`, and the returned final `LoopState` stands for the
still-looping program. -/
def watch (runs : Nat → RunResult) (newWatcher subscribeWatch : Except String Unit)
    (items : List RecvItem) (opts : Opts) : Except String LoopState :=
  if (initialRunState runs opts).opts.enable_watcher = false then
    Except.ok (initialRunState runs opts)
  else
    match newWatcher with
    | Except.error e => Except.error e
    | Except.ok _ =>
      match subscribeWatch with
      | Except.error e => Except.error e
      | Except.ok _ =>
        Except.ok (watchLoop runs items
          { initialRunState runs opts with
            out := (initialRunState runs opts).out ++
              ["Started watching " ++
                (initialRunState runs opts).opts.compare_pdb_file ++
                " for changes. CTRL+C to quit."] })

/-- Modelled from the spec: one entry of an executable image's section
table (the Image Accessor lives in the `corelogic` module, which is not in
the sources): a virtual address range given by its start and size, and the
file offset at which the section's bytes are stored. -/
structure ImageSection where
  virtual_address : Nat
  virtual_size : Nat
  file_offset : Nat
deriving Repr, DecidableEq

/-- Whether `addr` lies strictly inside the section's virtual range. -/
def sectionContains (s : ImageSection) (addr : Nat) : Bool :=
  decide (s.virtual_address ≤ addr) &&
    decide (addr < s.virtual_address + s.virtual_size)

/-- Modelled from the spec: the `SectionMap`, a read-only ordered view of an
image's sections. -/
structure SectionMap where
  sections : List ImageSection
deriving Repr, DecidableEq

/-- Two sections with non-overlapping virtual ranges. -/
def disjointSections (s₁ s₂ : ImageSection) : Prop :=
  s₁.virtual_address + s₁.virtual_size ≤ s₂.virtual_address ∨
    s₂.virtual_address + s₂.virtual_size ≤ s₁.virtual_address

/-- The spec's `SectionMap` invariant: section virtual ranges are pairwise
non-overlapping. -/
def SectionMap.WellFormed (m : SectionMap) : Prop :=
  m.sections.Pairwise disjointSections

/-- Modelled from the spec: `translate` of the Image Accessor (absent
`corelogic` module) — locate the section whose virtual range contains
`virtual_address` and return `section.file_offset + (virtual_address -
section.virtual_address)`; an address inside no section is an `IOFailure`
rather than an offset. -/
def translate (m : SectionMap) (virtual_address : Nat) : Except CoreError Nat :=
  match m.sections.find? (fun s => sectionContains s virtual_address) with
  | some s =>
      Except.ok (s.file_offset + (virtual_address - s.virtual_address))
  | none => Except.error (CoreError.IoError "virtual address outside of any section")

/-- A decoded instruction record (the spec's `Instruction`): address,
consumed byte length, and the rendered mnemonic-and-operand text. -/
structure Instruction where
  address : Nat
  byte_length : Nat
  text : String
deriving Repr, DecidableEq

/-- Modelled from the spec: the external decoding capability
`decode_one(bytes_from_here)`, yielding the consumed byte count and the
instruction text, or failing on an undecodable byte sequence. -/
abbrev DecodeOne : Type := List Nat → Option (Nat × String)

/-- Modelled from the spec: the Decoder Adapter drives `decode_one` over a
byte slice anchored at a start virtual address; each element's address is
the start address plus the cumulative bytes consumed so far, and decoding
stops when cumulative consumed bytes reach the byte-length cap, or earlier
on the first undecodable byte.  `fuel` bounds the recursion (the sequence
is finite). -/
def decodeSeq (decodeOne : DecodeOne) :
    Nat → List Nat → Nat → Nat → List Instruction
  | 0, _, _, _ => []
  | fuel + 1, bytes, addr, maxLen =>
      if maxLen = 0 then []
      else
        match decodeOne (bytes.take maxLen) with
        | none => []
        | some (c, txt) =>
            { address := addr, byte_length := c, text := txt } ::
              decodeSeq decodeOne fuel (bytes.drop c) (addr + c) (maxLen - c)

/-- Total bytes consumed by an instruction stream. -/
def consumedBytes (l : List Instruction) : Nat :=
  (l.map Instruction.byte_length).sum

/-- Modelled from the spec: step 5 of the Alignment Engine — the byte
length used for the compare-side stream: the reference function's own known
length when `truncate_to_original` is set, else the instrumented length
from the debug metadata. -/
def compareStreamLength (truncate_to_original : Bool)
    (instrumentedLen referenceLen : Nat) : Nat :=
  if truncate_to_original then referenceLen else instrumentedLen

/-- Modelled from the spec: the compare-side instruction stream, decoded at
the shared anchor `rva` with the length chosen by the truncation policy. -/
def compareStream (decodeOne : DecodeOne) (fuel : Nat) (bytes : List Nat)
    (rva : Nat) (truncate_to_original : Bool)
    (instrumentedLen referenceLen : Nat) : List Instruction :=
  decodeSeq decodeOne fuel bytes rva
    (compareStreamLength truncate_to_original instrumentedLen referenceLen)

/-- A sample decoding capability used for concrete evaluation: every
instruction is two bytes long. -/
def twoByteDecoder : DecodeOne := fun bs =>
  if 2 ≤ bs.length then some (2, "mov ax, bx") else none

/-- `DisasmOpts` as built by `parse_disasm_opts` (`cmdline.rs` 132-138). -/
structure DisasmOpts where
  print_adresses : Bool
  show_mem_disp : Bool
  show_imms : Bool
deriving Repr, DecidableEq

/-- Modelled from the spec: the operand text of a decoded instruction as
the redaction layer sees it — addressing-mode shape (register names,
punctuation), literal memory-displacement / indirect-target values, and
literal immediate values. -/
inductive OperandPart where
  | shape (s : String)
  | memDisp (value : Nat)
  | imm (value : Nat)
deriving Repr, DecidableEq

/-- Modelled from the spec: rendering of one operand part under the display
policy — with `show_mem_disp` false every displacement value becomes the
fixed placeholder, with `show_imms` false every immediate value does;
shape text is always kept. -/
def renderPart (opts : DisasmOpts) : OperandPart → String
  | .shape s => s
  | .memDisp v => if opts.show_mem_disp then fmtUpperHex v else "disp"
  | .imm v => if opts.show_imms then fmtUpperHex v else "imm"

/-- A decoded instruction before formatting, with structured operand text. -/
structure RawInstruction where
  address : Nat
  byte_length : Nat
  mnemonic : String
  operands : List OperandPart
deriving Repr, DecidableEq

/-- Fixed-width (8 hex digits) upper-hex rendering of an address. -/
def fmtHexFixedWidth (n : Nat) : String :=
  String.mk (List.replicate (8 - (Nat.toDigits 16 n).length) '0') ++
    fmtUpperHex n

/-- Modelled from the spec: `format(instruction, options)` — the leading
address column only when `print_adresses` is set, always the mnemonic, then
the operand parts rendered under the redaction policy. -/
def formatIns (opts : DisasmOpts) (ins : RawInstruction) : String :=
  (if opts.print_adresses then fmtHexFixedWidth ins.address ++ " " else "") ++
    ins.mnemonic ++ " " ++
    String.join (ins.operands.map (renderPart opts))

/-- Replace every memory-displacement value in an operand list by `f` of
it, leaving everything else unchanged. -/
def mapDispValues (f : Nat → Nat) (parts : List OperandPart) :
    List OperandPart :=
  parts.map fun p =>
    match p with
    | .memDisp v => .memDisp (f v)
    | p => p

/-- Replace every immediate value in an operand list by `f` of it, leaving
everything else unchanged. -/
def mapImmValues (f : Nat → Nat) (parts : List OperandPart) :
    List OperandPart :=
  parts.map fun p =>
    match p with
    | .imm v => .imm (f v)
    | p => p

/-- Rust's `char::to_digit(radix)`: ASCII digits and letters (either case)
whose value is below the radix. -/
def charToDigit (radix : Nat) (c : Char) : Option Nat :=
  if '0' ≤ c ∧ c ≤ '9' then
    if c.toNat - 48 < radix then some (c.toNat - 48) else none
  else if 'a' ≤ c ∧ c ≤ 'z' then
    if c.toNat - 97 + 10 < radix then some (c.toNat - 97 + 10) else none
  else if 'A' ≤ c ∧ c ≤ 'Z' then
    if c.toNat - 65 + 10 < radix then some (c.toNat - 65 + 10) else none
  else none

/-- One accumulation step of `u64::from_str_radix`: multiply by the radix
and add the next digit, checking for invalid digits and `u64` overflow. -/
def u64AccDigit (radix : Nat) (acc : Option Nat) (c : Char) : Option Nat :=
  match acc with
  | none => none
  | some a =>
      match charToDigit radix c with
      | none => none
      | some d =>
          if a * radix + d < u64Mod then some (a * radix + d) else none

/-- Rust's `u64::from_str_radix`: an optional single leading plus sign (a
minus sign, a bare sign, or an empty string is an error for an unsigned
type), then a non-empty digit string accumulated left-to-right with
overflow checks against `2^64`. -/
def u64FromStrRadix (radix : Nat) (s : String) : Option Nat :=
  match s.data with
  | [] => none
  | c :: rest =>
      if c = '+' then
        if rest.isEmpty then none
        else rest.foldl (u64AccDigit radix) (some 0)
      else if c = '-' then none
      else (c :: rest).foldl (u64AccDigit radix) (some 0)

/-- Rust's `str::starts_with` for the ASCII pattern `"0x"`, as a character
prefix test (for an ASCII pattern a UTF-8 byte prefix and a character
prefix coincide). -/
def strStartsWith (s p : String) : Bool := p.data.isPrefixOf s.data

/-- The characters `u64::from_str_radix` treats as digits: everything after
an optional single leading plus sign. -/
def digitChars (s : String) : List Char :=
  match s.data with
  | [] => []
  | c :: rest => if c = '+' then rest else c :: rest

/-- `parse_offset` (`main.rs` 143-148): hexadecimal after an exact
lowercase `"0x"` prefix, otherwise decimal over the whole string. -/
def parse_offset (v : String) : Option Nat :=
  if strStartsWith v "0x" then
    u64FromStrRadix 16 (String.mk (v.data.drop 2))
  else
    u64FromStrRadix 10 v

/-- `is_vaild_number` (`main.rs` 137-141, name as in the source): the clap
validator wrapping `parse_offset`. -/
def is_vaild_number (v : String) : Except String Unit :=
  match parse_offset v with
  | some _ => Except.ok ()
  | none =>
      Except.error "Argument has to be a decimal or hex (0xDEADBEEF) number."

end DevComparer

namespace DevComparer

theorem reportError_eq (e : CoreError) :
    reportError e = errMsgHead e ++ errPayload e := by
  cases e <;> simp [reportError, errMsgHead, errPayload]

theorem append_ne_of_get_ne (a b x y : String) (i : Nat)
    (hia : i < a.data.length) (hib : i < b.data.length)
    (h : a.data.get? i ≠ b.data.get? i) : a ++ x ≠ b ++ y := by
  intro he
  apply h
  have hd : (a ++ x).data = (b ++ y).data := by rw [he]
  rw [String.data_append, String.data_append] at hd
  have hcong := congrArg (fun l => l.get? i) hd
  simpa [List.get?_eq_getElem?, List.getElem?_append_left hia,
    List.getElem?_append_left hib] using hcong

theorem append_ne_empty (a x : String) (ha : a.data ≠ []) : a ++ x ≠ "" := by
  intro h
  have hd := congrArg String.data h
  rw [String.data_append, show ("" : String).data = [] from rfl,
    List.append_eq_nil] at hd
  exact ha hd.1

/-- C4: each of the five `CoreError` kinds is reported with its own distinct
human-readable message — errors of different kinds never print the same line,
whatever payloads they carry — and no kind is swallowed: every error prints a
non-empty message. -/
theorem error_kinds_reported_distinctly :
    (∀ e₁ e₂ : CoreError, errKind e₁ ≠ errKind e₂ →
      reportError e₁ ≠ reportError e₂) ∧
    (∀ e : CoreError, reportError e ≠ "") := by
  constructor
  · intro e₁ e₂ hk
    rw [reportError_eq, reportError_eq]
    apply append_ne_of_get_ne _ _ _ _ 9
    · cases e₁ <;> simp only [errMsgHead] <;> decide
    · cases e₂ <;> simp only [errMsgHead] <;> decide
    · cases e₁ <;> cases e₂ <;> first
        | exact absurd rfl hk
        | simp only [errMsgHead] <;> decide
  · intro e
    rw [reportError_eq]
    apply append_ne_empty
    cases e <;> simp only [errMsgHead] <;> decide

/-- Witness for C4 at concrete errors of two different kinds. -/
theorem error_kinds_reported_distinctly_witness :
    errKind CoreError.SymbolNotFound ≠ errKind (CoreError.IoError "x") ∧
    reportError CoreError.SymbolNotFound ≠ reportError (CoreError.IoError "x") :=
  ⟨by decide,
    error_kinds_reported_distinctly.1 CoreError.SymbolNotFound
      (CoreError.IoError "x") (by decide)⟩

/-- C2: a run that fails with any `CoreError` leaves the retained
last-known-good result (and the whole `Opts` state) unchanged; a successful
run replaces `last_offset_length` wholesale with the new pair; and a
successful run that follows any number of failed runs behaves exactly as if
the failures had not happened, so its delta is computed against the last
successful result. -/
theorem failed_run_preserves_last_result :
    (∀ (opts : Opts) (e : CoreError),
      (run_disassemble (Except.error e) opts).1 = opts) ∧
    (∀ (opts : Opts) (o l : Nat),
      (run_disassemble (Except.ok (o, l)) opts).1.last_offset_length =
        some (o, l)) ∧
    (∀ (opts : Opts) (e : CoreError) (p : Nat × Nat),
      run_disassemble (Except.ok p) ((run_disassemble (Except.error e) opts).1) =
        run_disassemble (Except.ok p) opts) := by
  refine ⟨fun opts e => rfl, fun opts o l => rfl, fun opts e p => rfl⟩

/-- C1 (code-bug evidence): with retained last-known-good result
offset `0x10`, length `0x20`, a successful run yielding the smaller offset
`0x8` and unchanged length `0x20` prints the wrapped `u64` difference
`+FFFFFFFFFFFFFFF8` (that is, `2^64 - 8`) as the offset delta instead of the
mathematical signed difference `-8` required by the claim (and a debug
build panics on the underflow instead). -/
theorem negative_delta_prints_wrapped_value :
    (run_disassemble (Except.ok (8, 32))
      { orig := "Diablo.exe", compare_file_path := "devilution.dll",
        compare_pdb_file := "devilution.pdb", orig_offset_start := 0,
        debug_symbol := "foo", print_adresses := true,
        last_offset_length := some (16, 32), enable_watcher := false }).2 =
      "Found foo at offset: 8 (+FFFFFFFFFFFFFFF8), length: 20 (+0)" ∧
    u64WrapSub 8 16 = 2 ^ 64 - 8 := by
  constructor
  · rfl
  · rfl

theorem run_disassemble_enable_watcher (res : RunResult) (opts : Opts) :
    (run_disassemble res opts).1.enable_watcher = opts.enable_watcher := by
  rcases res with e | ⟨o, l⟩ <;> rfl

/-- C3: `watch` returns an error only when setting up the change watcher
fails — watcher creation or subscription, and only with watching enabled —
and once setup has succeeded it returns normally (the loop keeps going) for
every sequence of received items and every, possibly all-failing, sequence
of per-run results. -/
theorem watch_exits_only_on_setup_failure :
    (∀ (runs : Nat → RunResult) (nw sw : Except String Unit)
        (items : List RecvItem) (opts : Opts) (e : String),
      watch runs nw sw items opts = Except.error e →
        opts.enable_watcher = true ∧
        (nw = Except.error e ∨ (nw = Except.ok () ∧ sw = Except.error e))) ∧
    (∀ (runs : Nat → RunResult) (items : List RecvItem) (opts : Opts),
      ∃ s, watch runs (Except.ok ()) (Except.ok ()) items opts =
        Except.ok s) := by
  constructor
  · intro runs nw sw items opts e h
    unfold watch at h
    split at h
    · exact absurd h (by simp)
    · next hw =>
      have hen : opts.enable_watcher = true := by
        rw [show (initialRunState runs opts).opts =
            (run_disassemble (runs 0) opts).1 from rfl,
          run_disassemble_enable_watcher] at hw
        exact eq_true_of_ne_false hw
      refine ⟨hen, ?_⟩
      cases nw with
      | error e' =>
          simp only [Except.error.injEq] at h
          exact Or.inl (by rw [h])
      | ok u =>
          cases u
          cases sw with
          | error e' =>
              simp only [Except.error.injEq] at h
              exact Or.inr ⟨rfl, by rw [h]⟩
          | ok u' => simp at h
  · intro runs items opts
    unfold watch
    split
    · exact ⟨_, rfl⟩
    · exact ⟨_, rfl⟩

/-- Witness for C3: with watching enabled and watcher creation failing, the
theorem applies and yields the setup-failure diagnosis; the loop part is
instantiated with failing runs and a nonempty item list. -/
theorem watch_exits_only_on_setup_failure_witness :
    ((({ orig := "Diablo.exe", compare_file_path := "devilution.dll",
         compare_pdb_file := "devilution.pdb", orig_offset_start := 0,
         debug_symbol := "foo", print_adresses := true,
         last_offset_length := none, enable_watcher := true } : Opts)).enable_watcher = true ∧
      ((Except.error "boom" : Except String Unit) = Except.error "boom" ∨
        ((Except.error "boom" : Except String Unit) = Except.ok () ∧
          (Except.ok () : Except String Unit) = Except.error "boom"))) ∧
    (∃ s, watch (fun _ => Except.error CoreError.SymbolNotFound)
        (Except.ok ()) (Except.ok ())
        [Except.ok (DebouncedEvent.Write "devilution.pdb")]
        { orig := "Diablo.exe", compare_file_path := "devilution.dll",
          compare_pdb_file := "devilution.pdb", orig_offset_start := 0,
          debug_symbol := "foo", print_adresses := true,
          last_offset_length := none, enable_watcher := true } =
        Except.ok s) :=
  ⟨watch_exits_only_on_setup_failure.1 (fun _ => Except.error CoreError.SymbolNotFound)
      (Except.error "boom") (Except.ok ())
      [Except.ok (DebouncedEvent.Write "devilution.pdb")]
      { orig := "Diablo.exe", compare_file_path := "devilution.dll",
        compare_pdb_file := "devilution.pdb", orig_offset_start := 0,
        debug_symbol := "foo", print_adresses := true,
        last_offset_length := none, enable_watcher := true } "boom" rfl,
    watch_exits_only_on_setup_failure.2 (fun _ => Except.error CoreError.SymbolNotFound)
      [Except.ok (DebouncedEvent.Write "devilution.pdb")]
      { orig := "Diablo.exe", compare_file_path := "devilution.dll",
        compare_pdb_file := "devilution.pdb", orig_offset_start := 0,
        debug_symbol := "foo", print_adresses := true,
        last_offset_length := none, enable_watcher := true }⟩

/-- C9: `watch` always performs exactly one comparison run before any
watching is set up, and with the watcher disabled it performs exactly that
one run and returns success, whatever the setup results and received items
would have been — also when that single run failed, in which case the one
printed line is the error report and the result is still `Ok`. -/
theorem watch_disabled_is_single_run :
    ∀ (runs : Nat → RunResult) (nw sw : Except String Unit)
      (items : List RecvItem) (opts : Opts),
      opts.enable_watcher = false →
      watch runs nw sw items opts =
        Except.ok { opts := (run_disassemble (runs 0) opts).1, runIdx := 1,
                    out := [(run_disassemble (runs 0) opts).2] } := by
  intro runs nw sw items opts h
  unfold watch
  rw [if_pos]
  · rfl
  · rw [show (initialRunState runs opts).opts = (run_disassemble (runs 0) opts).1 from rfl,
      run_disassemble_enable_watcher]
    exact h

/-- Witness for C9: watcher disabled, the single run fails with
`SymbolNotFound`; `watch` still returns `Ok`, one run performed, one error
line printed. -/
theorem watch_disabled_is_single_run_witness :
    watch (fun _ => Except.error CoreError.SymbolNotFound)
      (Except.ok ()) (Except.ok ()) []
      { orig := "Diablo.exe", compare_file_path := "devilution.dll",
        compare_pdb_file := "devilution.pdb", orig_offset_start := 0,
        debug_symbol := "foo", print_adresses := true,
        last_offset_length := none, enable_watcher := false } =
      Except.ok
        { opts := { orig := "Diablo.exe", compare_file_path := "devilution.dll",
                    compare_pdb_file := "devilution.pdb", orig_offset_start := 0,
                    debug_symbol := "foo", print_adresses := true,
                    last_offset_length := none, enable_watcher := false },
          runIdx := 1,
          out := ["Symbol not found in the pdb."] } := by
  rw [watch_disabled_is_single_run (fun _ => Except.error CoreError.SymbolNotFound)
    (Except.ok ()) (Except.ok ()) [] _ rfl]
  rfl

/-- C8: one loop iteration triggers a comparison run if and only if the
received item is a debounced `Create` or `Write` event — then the run
counter advances by exactly one — while every other received event leaves
the state entirely unchanged (no run, no output, no error), and a channel
receive error only appends a watch-error report line, never triggering a
run. -/
theorem loop_runs_iff_create_or_write :
    ∀ (runs : Nat → RunResult) (item : RecvItem) (s : LoopState),
      ((watchStep runs item s).runIdx =
        s.runIdx + (if isTrigger item then 1 else 0)) ∧
      (isTrigger item = false →
        ∀ ev, item = Except.ok ev → watchStep runs item s = s) ∧
      (∀ m, item = Except.error m →
        watchStep runs item s =
          { opts := s.opts, runIdx := s.runIdx,
            out := s.out ++ ["Watch error: " ++ m] }) := by
  intro runs item s
  rcases item with m | ev
  · refine ⟨rfl, ?_, ?_⟩
    · intro _ ev hev
      cases hev
    · intro m' hm
      cases hm
      rfl
  · cases ev <;>
      refine ⟨rfl, ?_, ?_⟩ <;>
      first
        | (intro _ ev hev; cases hev; rfl)
        | (intro ht ev hev; simp [isTrigger] at ht)
        | (intro m' hm; cases hm)

/-- Witness for C8: a `Chmod` event does not trigger a run and changes
nothing; a receive error only appends the watch-error line. -/
theorem loop_runs_iff_create_or_write_witness :
    (isTrigger (Except.ok (DebouncedEvent.Chmod "devilution.pdb")) = false ∧
      watchStep (fun _ => Except.error CoreError.SymbolNotFound)
          (Except.ok (DebouncedEvent.Chmod "devilution.pdb"))
          { opts := { orig := "Diablo.exe", compare_file_path := "devilution.dll",
                      compare_pdb_file := "devilution.pdb", orig_offset_start := 0,
                      debug_symbol := "foo", print_adresses := true,
                      last_offset_length := none, enable_watcher := true },
            runIdx := 1, out := [] } =
        { opts := { orig := "Diablo.exe", compare_file_path := "devilution.dll",
                    compare_pdb_file := "devilution.pdb", orig_offset_start := 0,
                    debug_symbol := "foo", print_adresses := true,
                    last_offset_length := none, enable_watcher := true },
          runIdx := 1, out := [] }) ∧
    watchStep (fun _ => Except.error CoreError.SymbolNotFound)
        (Except.error "channel closed")
        { opts := { orig := "Diablo.exe", compare_file_path := "devilution.dll",
                    compare_pdb_file := "devilution.pdb", orig_offset_start := 0,
                    debug_symbol := "foo", print_adresses := true,
                    last_offset_length := none, enable_watcher := true },
          runIdx := 1, out := [] } =
      { opts := { orig := "Diablo.exe", compare_file_path := "devilution.dll",
                  compare_pdb_file := "devilution.pdb", orig_offset_start := 0,
                  debug_symbol := "foo", print_adresses := true,
                  last_offset_length := none, enable_watcher := true },
        runIdx := 1, out := ["Watch error: channel closed"] } :=
  ⟨⟨rfl,
    (loop_runs_iff_create_or_write (fun _ => Except.error CoreError.SymbolNotFound)
        (Except.ok (DebouncedEvent.Chmod "devilution.pdb")) _).2.1 rfl _ rfl⟩,
    (loop_runs_iff_create_or_write (fun _ => Except.error CoreError.SymbolNotFound)
        (Except.error "channel closed") _).2.2 "channel closed" rfl⟩

theorem sectionContains_excl (s₁ s₂ : ImageSection)
    (h : disjointSections s₁ s₂) (a : Nat)
    (h₁ : sectionContains s₁ a = true) : sectionContains s₂ a = false := by
  unfold disjointSections at h
  have h₁' : s₁.virtual_address ≤ a ∧
      a < s₁.virtual_address + s₁.virtual_size := by
    simpa [sectionContains] using h₁
  rw [Bool.eq_false_iff]
  intro hc
  have h₂' : s₂.virtual_address ≤ a ∧
      a < s₂.virtual_address + s₂.virtual_size := by
    simpa [sectionContains] using hc
  rcases h with h | h <;> omega

theorem find?_section_unique (addr : Nat) :
    ∀ (l : List ImageSection), l.Pairwise disjointSections →
      ∀ s ∈ l, sectionContains s addr = true →
        l.find? (fun t => sectionContains t addr) = some s := by
  intro l
  induction l with
  | nil => intro _ s hs; cases hs
  | cons hd tl ih =>
      intro hp s hs hc
      rcases List.pairwise_cons.mp hp with ⟨hdisj, hp'⟩
      rcases List.mem_cons.mp hs with hs | hs
      · subst hs
        exact List.find?_cons_of_pos _ hc
      · have hh : sectionContains hd addr = false := by
          have hds : disjointSections s hd := by
            unfold disjointSections at hdisj ⊢
            exact Or.symm (hdisj s hs)
          exact sectionContains_excl s hd hds addr hc
        rw [List.find?_cons_of_neg _ (by simp [hh])]
        exact ih hp' s hs hc

/-- C5: for a well-formed section map (pairwise non-overlapping virtual
ranges) and a virtual address lying inside a section, `translate` returns
that section's `file_offset + (address - virtual_address)`; for an address
inside no section it fails with the out-of-section `IOFailure` instead of
returning an offset. -/
theorem translate_unique_section :
    (∀ (m : SectionMap) (s : ImageSection) (addr : Nat),
      m.WellFormed → s ∈ m.sections → sectionContains s addr = true →
      translate m addr =
        Except.ok (s.file_offset + (addr - s.virtual_address))) ∧
    (∀ (m : SectionMap) (addr : Nat),
      (∀ s ∈ m.sections, sectionContains s addr = false) →
      translate m addr =
        Except.error (CoreError.IoError "virtual address outside of any section")) := by
  constructor
  · intro m s addr hwf hmem hc
    unfold translate
    rw [find?_section_unique addr m.sections hwf s hmem hc]
  · intro m addr hnone
    unfold translate
    rw [List.find?_eq_none.mpr (by intro s hs; simp [hnone s hs])]

/-- Witness for C5 on a concrete two-section map: address `0x2010` falls in
the second section (`va 0x2000`, `size 0x100`, `file offset 0x600`) and
translates to `0x610`; address `0x3000` is in no section and errors. -/
theorem translate_unique_section_witness :
    translate
        { sections := [{ virtual_address := 4096, virtual_size := 512, file_offset := 1024 },
                       { virtual_address := 8192, virtual_size := 256, file_offset := 1536 }] }
        8208 =
      Except.ok (1536 + (8208 - 8192)) ∧
    translate
        { sections := [{ virtual_address := 4096, virtual_size := 512, file_offset := 1024 },
                       { virtual_address := 8192, virtual_size := 256, file_offset := 1536 }] }
        12288 =
      Except.error (CoreError.IoError "virtual address outside of any section") :=
  ⟨translate_unique_section.1
      { sections := [{ virtual_address := 4096, virtual_size := 512, file_offset := 1024 },
                     { virtual_address := 8192, virtual_size := 256, file_offset := 1536 }] }
      { virtual_address := 8192, virtual_size := 256, file_offset := 1536 }
      8208
      (by unfold SectionMap.WellFormed; simp [disjointSections])
      (by simp)
      (by decide),
    translate_unique_section.2
      { sections := [{ virtual_address := 4096, virtual_size := 512, file_offset := 1024 },
                     { virtual_address := 8192, virtual_size := 256, file_offset := 1536 }] }
      12288
      (by intro s hs; rcases List.mem_cons.mp hs with rfl | hs
          · decide
          · rcases List.mem_cons.mp hs with rfl | hs
            · decide
            · cases hs)⟩

theorem consumedBytes_nil : consumedBytes [] = 0 := rfl

theorem consumedBytes_cons (i : Instruction) (l : List Instruction) :
    consumedBytes (i :: l) = i.byte_length + consumedBytes l := by
  simp [consumedBytes]

theorem consumedBytes_decodeSeq_le (decodeOne : DecodeOne)
    (hdec : ∀ bs c t, decodeOne bs = some (c, t) → c ≤ bs.length) :
    ∀ (fuel : Nat) (bytes : List Nat) (addr maxLen : Nat),
      consumedBytes (decodeSeq decodeOne fuel bytes addr maxLen) ≤ maxLen := by
  intro fuel
  induction fuel with
  | zero =>
      intro bytes addr maxLen
      simp [decodeSeq, consumedBytes]
  | succ n ih =>
      intro bytes addr maxLen
      unfold decodeSeq
      split
      · simp [consumedBytes]
      · cases hdo : decodeOne (bytes.take maxLen) with
        | none => simp [consumedBytes]
        | some p =>
            rcases p with ⟨c, txt⟩
            have hc : c ≤ maxLen := by
              have hlen := hdec _ _ _ hdo
              have htake : (bytes.take maxLen).length ≤ maxLen := by
                simp [List.length_take]
              omega
            have hr := ih (bytes.drop c) (addr + c) (maxLen - c)
            rw [consumedBytes_cons]
            have hb : ({ address := addr, byte_length := c, text := txt } :
                Instruction).byte_length = c := rfl
            rw [hb]
            omega

/-- C6: with the truncate-to-reference-length option set and reference
length `R`, the compare-side stream's total consumed bytes never exceed `R`
— whatever length the debug metadata reported for the instrumented side —
for every decoding capability that never consumes more bytes than it is
handed. -/
theorem truncate_caps_consumed_bytes :
    ∀ (decodeOne : DecodeOne) (fuel : Nat) (bytes : List Nat) (rva : Nat)
      (instrumentedLen referenceLen : Nat),
      (∀ bs c t, decodeOne bs = some (c, t) → c ≤ bs.length) →
      consumedBytes
          (compareStream decodeOne fuel bytes rva true instrumentedLen
            referenceLen) ≤
        referenceLen := by
  intro d fuel bytes rva il rl hdec
  unfold compareStream compareStreamLength
  simpa using consumedBytes_decodeSeq_le d hdec fuel bytes rva rl

/-- Witness for C6: six `nop`-like bytes, instrumented length 6, reference
length 4; under a two-byte-per-instruction decoder the truncated compare
stream consumes at most 4 bytes. -/
theorem truncate_caps_consumed_bytes_witness :
    consumedBytes
        (compareStream twoByteDecoder 8 [144, 144, 144, 144, 144, 144]
          4198400 true 6 4) ≤ 4 :=
  truncate_caps_consumed_bytes twoByteDecoder 8 [144, 144, 144, 144, 144, 144]
    4198400 6 4
    (by
      intro bs c t h
      unfold twoByteDecoder at h
      split at h
      · next hl =>
          cases h
          exact hl
      · cases h)

theorem renderPart_disp_invariant (opts : DisasmOpts)
    (h : opts.show_mem_disp = false) (f : Nat → Nat) (p : OperandPart) :
    renderPart opts
        (match p with
          | OperandPart.memDisp v => OperandPart.memDisp (f v)
          | p => p) =
      renderPart opts p := by
  cases p <;> simp [renderPart, h]

theorem renderPart_imm_invariant (opts : DisasmOpts)
    (h : opts.show_imms = false) (f : Nat → Nat) (p : OperandPart) :
    renderPart opts
        (match p with
          | OperandPart.imm v => OperandPart.imm (f v)
          | p => p) =
      renderPart opts p := by
  cases p <;> simp [renderPart, h]

/-- C7: the formatted output of an instruction is independent of every
literal memory-displacement value when `show_mem_disp` is false and of
every literal immediate value when `show_imms` is false — arbitrarily
rewriting those values does not change the emitted line, so no literal
value can appear in it; each redacted value renders as its fixed
placeholder; and both properties hold for every setting of the other flag. -/
theorem redaction_hides_literal_values :
    ∀ (opts : DisasmOpts) (ins : RawInstruction) (f : Nat → Nat),
      (opts.show_mem_disp = false →
        formatIns opts { ins with operands := mapDispValues f ins.operands } =
          formatIns opts ins) ∧
      (opts.show_imms = false →
        formatIns opts { ins with operands := mapImmValues f ins.operands } =
          formatIns opts ins) ∧
      (∀ v, opts.show_mem_disp = false →
        renderPart opts (OperandPart.memDisp v) = "disp") ∧
      (∀ v, opts.show_imms = false →
        renderPart opts (OperandPart.imm v) = "imm") := by
  intro opts ins f
  refine ⟨?_, ?_, ?_, ?_⟩
  · intro h
    have hmap : (mapDispValues f ins.operands).map (renderPart opts) =
        ins.operands.map (renderPart opts) := by
      unfold mapDispValues
      rw [List.map_map]
      exact List.map_congr_left
        (fun a _ => renderPart_disp_invariant opts h f a)
    simp [formatIns, hmap]
  · intro h
    have hmap : (mapImmValues f ins.operands).map (renderPart opts) =
        ins.operands.map (renderPart opts) := by
      unfold mapImmValues
      rw [List.map_map]
      exact List.map_congr_left
        (fun a _ => renderPart_imm_invariant opts h f a)
    simp [formatIns, hmap]
  · intro v h
    simp [renderPart, h]
  · intro v h
    simp [renderPart, h]

/-- Witness for C7: with displacements hidden (immediates shown), rewriting
the displacement value of a concrete `mov` does not change the output, the
displacement renders as the placeholder, and with immediates hidden an
immediate renders as its placeholder. -/
theorem redaction_hides_literal_values_witness :
    formatIns { print_adresses := false, show_mem_disp := false, show_imms := true }
        { address := 4198400, byte_length := 6, mnemonic := "mov",
          operands := mapDispValues (fun _ => 0)
            [OperandPart.shape "eax, [ebp - ", OperandPart.memDisp 1234,
              OperandPart.shape "]"] } =
      formatIns { print_adresses := false, show_mem_disp := false, show_imms := true }
        { address := 4198400, byte_length := 6, mnemonic := "mov",
          operands := [OperandPart.shape "eax, [ebp - ",
            OperandPart.memDisp 1234, OperandPart.shape "]"] } ∧
    renderPart { print_adresses := false, show_mem_disp := false, show_imms := true }
        (OperandPart.memDisp 1234) = "disp" ∧
    renderPart { print_adresses := false, show_mem_disp := true, show_imms := false }
        (OperandPart.imm 7) = "imm" :=
  ⟨(redaction_hides_literal_values
        { print_adresses := false, show_mem_disp := false, show_imms := true }
        { address := 4198400, byte_length := 6, mnemonic := "mov",
          operands := [OperandPart.shape "eax, [ebp - ",
            OperandPart.memDisp 1234, OperandPart.shape "]"] }
        (fun _ => 0)).1 rfl,
    (redaction_hides_literal_values
        { print_adresses := false, show_mem_disp := false, show_imms := true }
        { address := 0, byte_length := 0, mnemonic := "", operands := [] }
        (fun v => v)).2.2.1 1234 rfl,
    (redaction_hides_literal_values
        { print_adresses := false, show_mem_disp := true, show_imms := false }
        { address := 0, byte_length := 0, mnemonic := "", operands := [] }
        (fun v => v)).2.2.2 7 rfl⟩

theorem u64AccDigit_some (radix a : Nat) (c : Char) (b : Nat)
    (h : u64AccDigit radix (some a) c = some b) :
    (charToDigit radix c).isSome = true ∧ b < u64Mod := by
  unfold u64AccDigit at h
  cases hcd : charToDigit radix c with
  | none =>
      rw [hcd] at h
      cases h
  | some d =>
      rw [hcd] at h
      have h' : (if a * radix + d < u64Mod then some (a * radix + d)
          else none) = some b := h
      refine ⟨by simp [hcd], ?_⟩
      by_cases hlt : a * radix + d < u64Mod
      · rw [if_pos hlt] at h'
        cases h'
        exact hlt
      · rw [if_neg hlt] at h'
        cases h'

theorem foldl_u64AccDigit_none (radix : Nat) :
    ∀ l : List Char, l.foldl (u64AccDigit radix) none = none := by
  intro l
  induction l with
  | nil => rfl
  | cons c t ih => simpa [u64AccDigit] using ih

theorem foldl_u64AccDigit_bound (radix : Nat) :
    ∀ (l : List Char) (a n : Nat), a < u64Mod →
      l.foldl (u64AccDigit radix) (some a) = some n → n < u64Mod := by
  intro l
  induction l with
  | nil =>
      intro a n ha h
      cases h
      exact ha
  | cons c t ih =>
      intro a n ha h
      rw [List.foldl_cons] at h
      cases hd : u64AccDigit radix (some a) c with
      | none =>
          rw [hd, foldl_u64AccDigit_none] at h
          cases h
      | some b =>
          rw [hd] at h
          exact ih b n (u64AccDigit_some radix a c b hd).2 h

theorem foldl_u64AccDigit_digits (radix : Nat) :
    ∀ (l : List Char) (a n : Nat),
      l.foldl (u64AccDigit radix) (some a) = some n →
      ∀ c ∈ l, (charToDigit radix c).isSome = true := by
  intro l
  induction l with
  | nil =>
      intro a n _ c hc
      cases hc
  | cons c t ih =>
      intro a n h c' hc'
      rw [List.foldl_cons] at h
      cases hd : u64AccDigit radix (some a) c with
      | none =>
          rw [hd, foldl_u64AccDigit_none] at h
          cases h
      | some b =>
          rw [hd] at h
          rcases List.mem_cons.mp hc' with rfl | hc'
          · exact (u64AccDigit_some radix a c' b hd).1
          · exact ih b n h c' hc'

theorem u64FromStrRadix_nil (radix : Nat) (v : String)
    (hv : v.data = []) : u64FromStrRadix radix v = none := by
  unfold u64FromStrRadix
  rw [hv]

theorem u64FromStrRadix_cons (radix : Nat) (v : String) (c : Char)
    (rest : List Char) (hv : v.data = c :: rest) :
    u64FromStrRadix radix v =
      if c = '+' then
        if rest.isEmpty then none
        else rest.foldl (u64AccDigit radix) (some 0)
      else if c = '-' then none
      else (c :: rest).foldl (u64AccDigit radix) (some 0) := by
  unfold u64FromStrRadix
  rw [hv]

theorem digitChars_cons (v : String) (c : Char) (rest : List Char)
    (hv : v.data = c :: rest) :
    digitChars v = if c = '+' then rest else c :: rest := by
  unfold digitChars
  rw [hv]

theorem u64FromStrRadix_lt (radix : Nat) (v : String) (n : Nat)
    (h : u64FromStrRadix radix v = some n) : n < u64Mod := by
  cases hv : v.data with
  | nil =>
      rw [u64FromStrRadix_nil radix v hv] at h
      cases h
  | cons c rest =>
      rw [u64FromStrRadix_cons radix v c rest hv] at h
      by_cases h₀ : c = '+'
      · rw [if_pos h₀] at h
        by_cases he : rest.isEmpty
        · rw [if_pos he] at h
          cases h
        · rw [if_neg he] at h
          exact foldl_u64AccDigit_bound radix rest 0 n (by decide) h
      · rw [if_neg h₀] at h
        by_cases h₁ : c = '-'
        · rw [if_pos h₁] at h
          cases h
        · rw [if_neg h₁] at h
          exact foldl_u64AccDigit_bound radix (c :: rest) 0 n (by decide) h

theorem u64FromStrRadix_digits (radix : Nat) (v : String) (n : Nat)
    (h : u64FromStrRadix radix v = some n) :
    ∀ c ∈ digitChars v, (charToDigit radix c).isSome = true := by
  cases hv : v.data with
  | nil =>
      rw [u64FromStrRadix_nil radix v hv] at h
      cases h
  | cons c₀ rest =>
      rw [u64FromStrRadix_cons radix v c₀ rest hv] at h
      rw [digitChars_cons v c₀ rest hv]
      by_cases h₀ : c₀ = '+'
      · rw [if_pos h₀] at h ⊢
        by_cases he : rest.isEmpty
        · rw [if_pos he] at h
          cases h
        · rw [if_neg he] at h
          exact foldl_u64AccDigit_digits radix rest 0 n h
      · rw [if_neg h₀] at h ⊢
        by_cases h₁ : c₀ = '-'
        · rw [if_pos h₁] at h
          cases h
        · rw [if_neg h₁] at h
          exact foldl_u64AccDigit_digits radix (c₀ :: rest) 0 n h

/-- C10 (amended): `parse_offset` parses the rest of the string as
hexadecimal exactly when it starts with the lowercase prefix `0x`, and
otherwise parses all of it as decimal; a bare `0x` and an uppercase `0X`
prefix are errors; any accepted string consists, after the optional `0x`
prefix and an optional single leading plus sign, solely of digits valid for
the selected radix; every accepted value fits in a `u64`; and the
command-line validator `is_vaild_number` accepts exactly the strings
`parse_offset` accepts. -/
theorem parse_offset_radix_rules :
    (∀ v : String, strStartsWith v "0x" = true →
      parse_offset v = u64FromStrRadix 16 (String.mk (v.data.drop 2))) ∧
    (∀ v : String, strStartsWith v "0x" = false →
      parse_offset v = u64FromStrRadix 10 v) ∧
    parse_offset "0x" = none ∧
    (∀ v : String, strStartsWith v "0X" = true → parse_offset v = none) ∧
    (∀ (radix : Nat) (v : String) (n : Nat),
      u64FromStrRadix radix v = some n →
      ∀ c ∈ digitChars v, (charToDigit radix c).isSome = true) ∧
    (∀ (v : String) (n : Nat), parse_offset v = some n → n < 2 ^ 64) ∧
    (∀ v : String,
      is_vaild_number v = Except.ok () ↔ (parse_offset v).isSome = true) := by
  refine ⟨?_, ?_, ?_, ?_, ?_, ?_, ?_⟩
  · intro v h
    simp [parse_offset, h]
  · intro v h
    simp [parse_offset, h]
  · rfl
  · intro v h
    unfold strStartsWith at h
    rcases hv : v.data with _ | ⟨c₁, _ | ⟨c₂, rest⟩⟩
    · rw [hv] at h
      cases h
    · rw [hv] at h
      rw [show ("0X" : String).data = ['0', 'X'] from rfl] at h
      simp [List.isPrefixOf] at h
    · rw [hv] at h
      rw [show ("0X" : String).data = ['0', 'X'] from rfl] at h
      have h0 : '0' = c₁ ∧ 'X' = c₂ := by
        simpa [List.isPrefixOf, Bool.and_eq_true, beq_iff_eq] using h
      rcases h0 with ⟨h₁, h₂⟩
      subst h₁
      subst h₂
      have hpre : strStartsWith v "0x" = false := by
        unfold strStartsWith
        rw [hv]
        rfl
      unfold parse_offset
      rw [hpre]
      simp only [Bool.false_eq_true, if_false]
      rw [u64FromStrRadix_cons 10 v '0' ('X' :: rest) hv,
        if_neg (by decide), if_neg (by decide),
        List.foldl_cons, List.foldl_cons,
        show u64AccDigit 10 (some 0) '0' = some 0 from rfl,
        show u64AccDigit 10 (some 0) 'X' = none from rfl,
        foldl_u64AccDigit_none]
  · intro radix v n h
    exact u64FromStrRadix_digits radix v n h
  · intro v n h
    unfold parse_offset at h
    split at h
    · exact u64FromStrRadix_lt 16 _ n h
    · exact u64FromStrRadix_lt 10 _ n h
  · intro v
    unfold is_vaild_number
    cases hp : parse_offset v <;> simp [hp]

/-- C10 counterexample: a plus sign is not a valid digit in any radix, yet
`parse_offset` accepts `"+5"` through the decimal branch and `"0x+5"`
through the hexadecimal branch — Rust's `from_str_radix` permits a single
leading plus sign — refuting the claim that every character invalid for the
selected radix makes `parse_offset` return an error. -/
theorem plus_sign_accepted_despite_invalid_digit :
    charToDigit 10 '+' = none ∧ charToDigit 16 '+' = none ∧
    parse_offset "+5" = some 5 ∧ parse_offset "0x+5" = some 5 :=
  ⟨rfl, rfl, rfl, rfl⟩

/-- Witness for C10 (amended) at concrete inputs: `"0x1F"` takes the
hexadecimal branch, `"0X1F"` errors, the accepted value 31 fits in a `u64`,
and the validator agrees with `parse_offset` on `"255"`. -/
theorem parse_offset_radix_rules_witness :
    parse_offset "0x1F" = u64FromStrRadix 16 (String.mk ("0x1F".data.drop 2)) ∧
    parse_offset "0X1F" = none ∧
    (31 : Nat) < 2 ^ 64 ∧
    (is_vaild_number "255" = Except.ok () ↔ (parse_offset "255").isSome = true) :=
  ⟨parse_offset_radix_rules.1 "0x1F" rfl,
    parse_offset_radix_rules.2.2.2.1 "0X1F" rfl,
    parse_offset_radix_rules.2.2.2.2.2.1 "0x1F" 31 rfl,
    parse_offset_radix_rules.2.2.2.2.2.2 "255"⟩

end DevComparer
